import Mathlib

/-!
Shallow embedding of the pricehunter client (src/src/api/client.ts and
src/src/screens/HomeScreen.tsx) and proofs about its polling, result
derivation, history, cart and saved-list logic.

Prices (JS `number`) are modelled as rationals; JS strings as `String`;
JS `Error` values as their message strings; fallible calls as `Except`.
-/

/-- Character-list membership test modelling JS `String.prototype.includes`
restricted to the needle starting at the head of the haystack. -/
def startsWithChars : List Char → List Char → Bool
  | _, [] => true
  | [], _ :: _ => false
  | a :: as, b :: bs => a == b && startsWithChars as bs

/-- Substring test on char lists: the needle occurs contiguously somewhere. -/
def containsChars : List Char → List Char → Bool
  | [], needle => startsWithChars [] needle
  | hay@(_ :: t), needle => startsWithChars hay needle || containsChars t needle

/-- Model of JS `hay.includes(needle)` on strings. -/
def strContains (hay needle : String) : Bool :=
  containsChars hay.toList needle.toList

/-- Model of JS `s.trim()`: strip leading and trailing whitespace. -/
def strTrim (s : String) : String :=
  ⟨((s.toList.dropWhile Char.isWhitespace).reverse.dropWhile Char.isWhitespace).reverse⟩

/-- Model of JS `toLowerCase`: lower-case every character. -/
def strToLower (s : String) : String :=
  ⟨s.toList.map Char.toLower⟩

/-- Price Listing as received from the backend (type `Price` in
HomeScreen.tsx): store, product_name, brand, price, url, optional promo. -/
structure Price where
  store : String
  product_name : String
  brand : String
  price : ℚ
  url : String
  promo_text : Option String := none
deriving DecidableEq

/-- Search job status values of the backend protocol
(`status` field of the search response). -/
inductive SearchStatus where
  | STARTED
  | PROCESSING
  | COMPLETED
  | EMPTY
deriving DecidableEq

/-- Parsed body of a search response (interface `SearchResponse` in
HomeScreen.tsx, plus the EMPTY status the backend protocol documents). -/
structure SearchResponse where
  status : SearchStatus
  message : Option String := none
  results : Option (List Price) := none
deriving DecidableEq

/-- Transport-level HTTP response handed to the client: numeric status
code and the parsed JSON body. -/
structure HttpResponse where
  status : Nat
  body : SearchResponse
deriving DecidableEq

/-- Model of `fetch` response's `ok` flag: status in the range 200-299. -/
def isOkStatus (n : Nat) : Bool := 200 ≤ n && n ≤ 299

/-- Embedding of `searchProduct` (src/src/api/client.ts lines 3-18):
`if (!res.ok) throw new Error("Search failed");
 if (res.status === 429) throw new Error("Rate limit exceeded. Try again later.");
 return res.json();`
Errors are modelled by their message strings. -/
def searchProduct (res : HttpResponse) : Except String SearchResponse :=
  if !(isOkStatus res.status) then
    .error "Search failed"
  else if res.status == 429 then
    .error "Rate limit exceeded. Try again later."
  else
    .ok res.body

/-- Deduplication performed in `pollSearch` on a COMPLETED response
(HomeScreen.tsx lines 254-256):
`rawResults.filter((item, index, self) => index === self.findIndex(t => t.url === item.url))`. -/
def dedupeByUrl (l : List Price) : List Price :=
  (l.enum.filter fun p => l.findIdx (fun t => t.url == p.2.url) == p.1).map Prod.snd

/-- UI state cells of HomeScreen touched by `pollSearch`:
`data`, `loading`, `error`, `statusMessage`. -/
structure PollState where
  data : List Price
  loading : Bool
  error : Option String
  statusMessage : Option String
deriving DecidableEq

/-- One step of `pollSearch` (HomeScreen.tsx lines 245-276), applied to the
outcome of the awaited `searchProduct` call. Returns the updated state and
the delay (ms) of the re-poll scheduled via `setTimeout`, if any.
COMPLETED: dedupe results, stop loading, clear message. STARTED/PROCESSING:
set the progress message and re-poll after 4000 ms. Any other status
(EMPTY included) matches no branch, so nothing happens. On an error whose
message contains "Too many requests": set the busy message and re-poll
after 10000 ms; on any other error: set the error cell
(`err.message || "Error de conexión"`) and stop loading. -/
def pollStep (s : PollState) (r : Except String SearchResponse) :
    PollState × Option Nat :=
  match r with
  | .ok response =>
    match response.status with
    | .COMPLETED =>
        let rawResults := response.results.getD []
        ({ s with data := dedupeByUrl rawResults,
                  loading := false,
                  statusMessage := none }, none)
    | .STARTED =>
        ({ s with statusMessage := some (response.message.getD "Buscando mejores precios...") },
         some 4000)
    | .PROCESSING =>
        ({ s with statusMessage := some (response.message.getD "Buscando mejores precios...") },
         some 4000)
    | .EMPTY => (s, none)
  | .error e =>
    if strContains e "Too many requests" then
      ({ s with statusMessage := some "Servidor ocupado, reintentando en breve..." },
       some 10000)
    else
      ({ s with error := some (if e = "" then "Error de conexión" else e),
                loading := false }, none)

/-- Filter predicate of the `filtered` memo (HomeScreen.tsx lines 301-306):
`brandOk && storeOk && itemOk`, where each facet passes when its selection
is empty, brand/store by membership, item by case-insensitive substring of
`product_name`. -/
def filterPred (selectedBrands selectedStores selectedItems : List String)
    (p : Price) : Bool :=
  (selectedBrands.length == 0 || selectedBrands.contains p.brand) &&
  ((selectedStores.length == 0 || selectedStores.contains p.store) &&
   (selectedItems.length == 0 ||
    selectedItems.any fun i => strContains (strToLower p.product_name) (strToLower i)))

/-- Comparator of `result.sort((a, b) => sortAsc ? a.price - b.price : b.price - a.price)`
(HomeScreen.tsx line 307), as the Boolean `le` relation of a stable sort. -/
def priceLe (sortAsc : Bool) (a b : Price) : Bool :=
  if sortAsc then decide (a.price ≤ b.price) else decide (b.price ≤ a.price)

/-- The `filtered` memo (HomeScreen.tsx lines 300-309): filter `data` by the
three facet predicates, then stable-sort by price in the chosen direction. -/
def filteredList (data : List Price) (selectedBrands selectedStores selectedItems : List String)
    (sortAsc : Bool) : List Price :=
  (data.filter (filterPred selectedBrands selectedStores selectedItems)).mergeSort
    (priceLe sortAsc)

/-- The `cheapestPrice` derivation (HomeScreen.tsx line 311):
`filtered[0]?.price` — price of the first element of the sorted/filtered
list, `none` when it is empty. -/
def cheapestPrice (data : List Price) (selectedBrands selectedStores selectedItems : List String)
    (sortAsc : Bool) : Option ℚ :=
  (filteredList data selectedBrands selectedStores selectedItems sortAsc).head?.map Price.price

/-- Embedding of `saveToHistory` (HomeScreen.tsx lines 134-144): trim the
term, no-op when the trimmed term is empty, drop case-insensitive
duplicates, prepend, keep at most `MAX_HISTORY = 20` entries. The returned
list is both the new state and what is persisted. -/
def saveToHistory (searchHistory : List String) (term : String) : List String :=
  let trimmedTerm := strTrim term
  if trimmedTerm = "" then searchHistory
  else
    ((trimmedTerm ::
      searchHistory.filter fun h => strToLower h != strToLower trimmedTerm).take 20)

/-- Folding `saveToHistory` over a sequence of recorded terms. -/
def recordAll (searchHistory : List String) (terms : List String) : List String :=
  terms.foldl saveToHistory searchHistory

/-- Cart Item (type `CartItem` in HomeScreen.tsx): a Price Listing plus a
quantity. -/
structure CartItem extends Price where
  quantity : Nat
deriving DecidableEq

/-- Embedding of `addToCart` (HomeScreen.tsx lines 207-215): if an entry
with the same url exists, increment its quantity in place, otherwise append
the listing with quantity 1. -/
def addToCart (cart : List CartItem) (product : Price) : List CartItem :=
  if cart.any fun i => i.url == product.url then
    cart.map fun i =>
      if i.url == product.url then { i with quantity := i.quantity + 1 } else i
  else
    cart ++ [{ product with quantity := 1 }]

/-- Embedding of `totalCartPrice` (HomeScreen.tsx line 229):
`cart.reduce((sum, item) => sum + item.price * item.quantity, 0)`. -/
def totalCartPrice (cart : List CartItem) : ℚ :=
  cart.foldl (fun sum item => sum + item.price * item.quantity) 0

/-- Saved List (interface `SavedList` in HomeScreen.tsx). -/
structure SavedList where
  id : String
  name : String
  items : List CartItem
  total : ℚ
  date : String
deriving DecidableEq

/-- UI/persistence state touched by `saveListToDevice`: the live cart, the
list-name input, the persisted `@my_lists` collection, the save modal flag,
and the last alert shown (title, body). -/
structure ScreenState where
  cart : List CartItem
  listName : String
  myLists : List SavedList
  isListModalOpen : Bool
  alert : Option (String × String)
deriving DecidableEq

/-- Embedding of `saveListToDevice` (HomeScreen.tsx lines 231-241).
`nowId` models `Date.now().toString()`, `todayDate` models
`new Date().toLocaleDateString()`, and `persistOk` models whether the
AsyncStorage read/write of the try-block succeeds; when it fails the catch
shows the error alert and nothing else changes. An empty (whitespace-only)
name returns early with the validation alert before any storage access. -/
def saveListToDevice (s : ScreenState) (nowId todayDate : String)
    (persistOk : Bool) : ScreenState :=
  if strTrim s.listName = "" then
    { s with alert := some ("Error", "Ponle un nombre a tu lista") }
  else if persistOk then
    let newList : SavedList :=
      { id := nowId, name := s.listName, items := s.cart,
        total := totalCartPrice s.cart, date := todayDate }
    { s with myLists := newList :: s.myLists,
             alert := some ("Éxito", "Lista guardada"),
             cart := [], listName := "", isListModalOpen := false }
  else
    { s with alert := some ("Error", "Error al guardar") }

/-- C2: when the transport-level response is not successful the client
fails with the generic RequestFailed error ("Search failed"); but, contrary
to the claim, a 429 response does NOT produce the distinct RateLimited
failure: the `!res.ok` check throws first, so the 429 branch is dead code
and no invocation of the client can ever produce the rate-limited error. -/
theorem searchProduct_c2 (r : HttpResponse) (b : SearchResponse) :
    (isOkStatus r.status = false → searchProduct r = .error "Search failed") ∧
    searchProduct r ≠ .error "Rate limit exceeded. Try again later." ∧
    searchProduct { status := 429, body := b } = .error "Search failed" := by
  refine ⟨fun h => by simp [searchProduct, h], ?_, rfl⟩
  by_cases h : isOkStatus r.status
  · have h429 : (r.status == 429) = false := by
      simp only [isOkStatus, Bool.and_eq_true, decide_eq_true_eq] at h
      simp only [beq_eq_false_iff_ne, ne_eq]
      omega
    simp [searchProduct, h, h429]
  · simp only [Bool.not_eq_true] at h
    simp [searchProduct, h]

/-- Witness for C2 at concrete responses: a 500 gives the generic failure,
and a 429 also gives the generic failure rather than the rate-limited one. -/
theorem searchProduct_c2_w :
    searchProduct { status := 500, body := ⟨.EMPTY, none, none⟩ } = .error "Search failed" ∧
    searchProduct { status := 429, body := ⟨.EMPTY, none, none⟩ } ≠
      .error "Rate limit exceeded. Try again later." :=
  ⟨(searchProduct_c2 ⟨500, ⟨.EMPTY, none, none⟩⟩ ⟨.EMPTY, none, none⟩).1 rfl,
   (searchProduct_c2 ⟨429, ⟨.EMPTY, none, none⟩⟩ ⟨.EMPTY, none, none⟩).2.1⟩

/-- C1: a rate-limited (429) poll attempt does NOT take the recovery path
the claim describes. The client turns a 429 into the generic error
"Search failed", the poller's recovery branch looks for "Too many requests"
in the message, so the catch sets the error cell, ends loading, and
schedules no retry. Even the client's own (unreachable) rate-limit message
"Rate limit exceeded. Try again later." would not match and would also be
surfaced as an error. -/
theorem pollStep_rate_limit_c1 (s : PollState) (b : SearchResponse) :
    pollStep s (searchProduct { status := 429, body := b }) =
      ({ s with error := some "Search failed", loading := false }, none) ∧
    pollStep s (.error "Rate limit exceeded. Try again later.") =
      ({ s with error := some "Rate limit exceeded. Try again later.",
                loading := false }, none) ∧
    pollStep s (.error "Too many requests") =
      ({ s with statusMessage := some "Servidor ocupado, reintentando en breve..." },
       some 10000) := by
  have h1 : searchProduct { status := 429, body := b } = .error "Search failed" := rfl
  have h2 : strContains "Search failed" "Too many requests" = false := by decide
  have h3 : strContains "Rate limit exceeded. Try again later." "Too many requests" = false := by
    decide
  have h4 : strContains "Too many requests" "Too many requests" = true := by decide
  rw [h1]
  refine ⟨?_, ?_, ?_⟩
  · simp [pollStep, h2]
  · simp [pollStep, h3]
  · simp [pollStep, h4]

/-- C3: a response with status EMPTY matches no branch of the current
`pollSearch`: the state is returned unchanged (the result set is not
cleared, `loading` is not ended) and no retry is scheduled. -/
theorem pollStep_empty_c3 (s : PollState) (m : Option String) (r : Option (List Price)) :
    pollStep s (.ok { status := .EMPTY, message := m, results := r }) = (s, none) := rfl

/-- C5: an item appears in the filtered (and sorted) output iff it is in
the raw data and satisfies the three facet predicates conjunctively: brand
selection empty or contains its brand, store selection empty or contains
its store, item selection empty or some selected item is a
case-insensitive substring of its product name. -/
theorem filtered_mem_c5 (data : List Price) (selB selS selI : List String)
    (sortAsc : Bool) (p : Price) :
    p ∈ filteredList data selB selS selI sortAsc ↔
      p ∈ data ∧
      ((selB = [] ∨ p.brand ∈ selB) ∧
       ((selS = [] ∨ p.store ∈ selS) ∧
        (selI = [] ∨ ∃ i ∈ selI, strContains (strToLower p.product_name) (strToLower i) = true))) := by
  simp [filteredList, List.mem_mergeSort, List.mem_filter, filterPred,
    List.length_eq_zero, List.any_eq_true, List.contains, List.elem_eq_mem]

/-- The sort comparator is transitive in both directions of the toggle. -/
theorem priceLe_trans (sa : Bool) (a b c : Price) :
    priceLe sa a b → priceLe sa b c → priceLe sa a c := by
  cases sa
  · intro h1 h2
    simp only [priceLe, Bool.false_eq_true, if_false, decide_eq_true_eq] at h1 h2 ⊢
    exact le_trans h2 h1
  · intro h1 h2
    simp only [priceLe, if_true, decide_eq_true_eq] at h1 h2 ⊢
    exact le_trans h1 h2

/-- The sort comparator is total in both directions of the toggle. -/
theorem priceLe_total (sa : Bool) (a b : Price) :
    priceLe sa a b || priceLe sa b a := by
  cases sa
  · simp only [priceLe, Bool.false_eq_true, if_false, Bool.or_eq_true, decide_eq_true_eq]
    exact le_total b.price a.price
  · simp only [priceLe, if_true, Bool.or_eq_true, decide_eq_true_eq]
    exact le_total a.price b.price

/-- C4 (amended): the derived cheapest price is the price of the first
element of the sorted/filtered list and is `none` exactly when that list
is empty; when the sort direction is ascending it is the minimum price
over the filtered result set. (As stated, the claim fails for descending
sort, where the first element carries the maximum price.) -/
theorem cheapest_c4 (data : List Price) (selB selS selI : List String) (sortAsc : Bool) :
    cheapestPrice data selB selS selI sortAsc =
      (filteredList data selB selS selI sortAsc).head?.map Price.price ∧
    (cheapestPrice data selB selS selI sortAsc = none ↔
      filteredList data selB selS selI sortAsc = []) ∧
    (sortAsc = true → ∀ m, cheapestPrice data selB selS selI sortAsc = some m →
      (∃ q ∈ data.filter (filterPred selB selS selI), q.price = m) ∧
      ∀ q ∈ data.filter (filterPred selB selS selI), m ≤ q.price) := by
  refine ⟨rfl, ?_, ?_⟩
  · simp [cheapestPrice]
  · rintro rfl m hm
    have hs := @List.sorted_mergeSort Price (priceLe true)
      (fun a b c => priceLe_trans true a b c) (fun a b => priceLe_total true a b)
      (data.filter (filterPred selB selS selI))
    rcases hfl : filteredList data selB selS selI true with _ | ⟨a, t⟩
    · rw [cheapestPrice, hfl] at hm
      simp at hm
    · rw [cheapestPrice, hfl] at hm
      simp only [List.head?_cons, Option.map_some', Option.some.injEq] at hm
      have hfl' : (data.filter (filterPred selB selS selI)).mergeSort (priceLe true) =
          a :: t := hfl
      rw [hfl'] at hs
      rw [List.pairwise_cons] at hs
      have hmem : ∀ q : Price, q ∈ data.filter (filterPred selB selS selI) ↔ q ∈ a :: t := by
        intro q
        rw [← hfl', List.mem_mergeSort]
      constructor
      · exact ⟨a, (hmem a).mpr (List.mem_cons_self a t), hm⟩
      · intro q hq
        rcases List.mem_cons.mp ((hmem q).mp hq) with h | h
        · subst h; rw [← hm]
        · have := hs.1 q h
          simp only [priceLe, if_true, decide_eq_true_eq] at this
          rw [← hm]; exact this

/-- Counterexample to C4 as stated: with descending sort, the derived
cheapest price of a two-element result set is 2, yet an element of price 1
is in the filtered output, so the first element does not carry the minimum
price of the filtered result set. -/
theorem cheapest_c4_cex :
    cheapestPrice [⟨"s", "n", "b", 1, "u1", none⟩, ⟨"s", "n", "b", 2, "u2", none⟩]
        [] [] [] false = some 2 ∧
    (⟨"s", "n", "b", 1, "u1", none⟩ : Price) ∈
      filteredList [⟨"s", "n", "b", 1, "u1", none⟩, ⟨"s", "n", "b", 2, "u2", none⟩]
        [] [] [] false ∧
    ¬((2 : ℚ) ≤ (1 : ℚ)) := by
  refine ⟨?_, ?_, by norm_num⟩ <;>
    simp [cheapestPrice, filteredList, filterPred, List.mergeSort, List.splitInTwo,
      List.splitAt, List.splitAt.go, List.merge, priceLe]

/-- Witness for the amended C4 at a concrete ascending search: the
cheapest price 1 is attained in the filtered set and bounds every
filtered price from below. -/
theorem cheapest_c4_w :
    (∃ q ∈ [(⟨"s", "n", "b", 2, "u2", none⟩ : Price),
            ⟨"s", "n", "b", 1, "u1", none⟩].filter (filterPred [] [] []),
        q.price = 1) ∧
    ∀ q ∈ [(⟨"s", "n", "b", 2, "u2", none⟩ : Price),
           ⟨"s", "n", "b", 1, "u1", none⟩].filter (filterPred [] [] []),
      (1 : ℚ) ≤ q.price :=
  (cheapest_c4 [⟨"s", "n", "b", 2, "u2", none⟩, ⟨"s", "n", "b", 1, "u1", none⟩]
      [] [] [] true).2.2 rfl 1
    (by simp [cheapestPrice, filteredList, filterPred, List.mergeSort, List.splitInTwo,
          List.splitAt, List.splitAt.go, List.merge, priceLe])

/-- Membership in the deduplicated list: exactly the elements sitting at
the first index that carries their url. -/
theorem mem_dedupeByUrl (l : List Price) (q : Price) :
    q ∈ dedupeByUrl l ↔ l[(l.findIdx fun t => t.url == q.url)]? = some q := by
  unfold dedupeByUrl
  simp only [List.mem_map, List.mem_filter]
  constructor
  · rintro ⟨⟨i, p⟩, ⟨hmem, hpred⟩, rfl⟩
    have hi : (l.findIdx fun t => t.url == p.url) = i := by simpa using hpred
    rw [hi]
    exact List.mk_mem_enum_iff_getElem?.mp hmem
  · intro h
    refine ⟨(l.findIdx fun t => t.url == q.url, q), ⟨?_, ?_⟩, rfl⟩
    · exact List.mk_mem_enum_iff_getElem?.mpr h
    · simp

/-- The index components of the enumerated list are pairwise distinct. -/
theorem enum_pairwise_fst_ne (l : List Price) :
    l.enum.Pairwise (fun a b => a.1 ≠ b.1) := by
  have h := List.nodup_enum_map_fst l
  rwa [List.Nodup, List.pairwise_map] at h

/-- C6: deduplication by url is an order-preserving sublist of the input,
its elements have pairwise distinct urls, every url of the input is still
represented, and an element is kept iff it sits at the first position of
its url in the input. -/
theorem dedupe_c6 (l : List Price) :
    List.Sublist (dedupeByUrl l) l ∧
    (dedupeByUrl l).Pairwise (fun a b => a.url ≠ b.url) ∧
    (∀ p ∈ l, ∃ q ∈ dedupeByUrl l, q.url = p.url) ∧
    (∀ q, q ∈ dedupeByUrl l ↔
      ∃ i, ∃ hlt : i < l.length, l.get ⟨i, hlt⟩ = q ∧
        ∀ j, ∀ hj : j < i, (l.get ⟨j, Nat.lt_trans hj hlt⟩).url ≠ q.url) := by
  refine ⟨?_, ?_, ?_, ?_⟩
  · -- order-preserving sublist
    have h1 : List.Sublist (l.enum.filter fun p =>
        l.findIdx (fun t => t.url == p.2.url) == p.1) l.enum := List.filter_sublist _
    have h2 := h1.map Prod.snd
    have h3 : l.enum.map Prod.snd = l := List.enumFrom_map_snd 0 l
    rw [h3] at h2
    exact h2
  · -- pairwise distinct urls
    have hfst : (l.enum.filter fun p => l.findIdx (fun t => t.url == p.2.url) == p.1).Pairwise
        (fun a b => a.1 ≠ b.1) :=
      (enum_pairwise_fst_ne l).sublist (List.filter_sublist _)
    have hurl : (l.enum.filter fun p => l.findIdx (fun t => t.url == p.2.url) == p.1).Pairwise
        (fun a b => a.2.url ≠ b.2.url) := by
      refine hfst.imp_of_mem ?_
      intro a b ha hb hne heq
      have hpa : (l.findIdx fun t => t.url == a.2.url) = a.1 := by
        simpa using (List.of_mem_filter ha)
      have hpb : (l.findIdx fun t => t.url == b.2.url) = b.1 := by
        simpa using (List.of_mem_filter hb)
      rw [heq] at hpa
      exact hne (hpa ▸ hpb ▸ rfl)
    unfold dedupeByUrl
    rw [List.pairwise_map]
    exact hurl
  · -- every url still represented
    intro p hp
    have hex : ∃ x ∈ l, (fun t => t.url == p.url) x := ⟨p, hp, by simp⟩
    have hlt := List.findIdx_lt_length_of_exists hex
    refine ⟨l.get ⟨l.findIdx fun t => t.url == p.url, hlt⟩, ?_, ?_⟩
    · have hq : ((l.get ⟨l.findIdx fun t => t.url == p.url, hlt⟩).url == p.url) = true := by
        simpa using @List.findIdx_getElem Price _ l hlt
      have hqeq : (l.get ⟨l.findIdx fun t => t.url == p.url, hlt⟩).url = p.url :=
        by simpa using hq
      rw [mem_dedupeByUrl]
      have hsame : (fun t : Price => t.url == (l.get ⟨l.findIdx fun t => t.url == p.url,
          hlt⟩).url) = fun t : Price => t.url == p.url := by
        funext t; rw [hqeq]
      rw [hsame]
      simp [List.getElem?_eq_getElem hlt]
    · simpa using @List.findIdx_getElem Price _ l hlt
  · -- kept iff first occurrence of its url
    intro q
    rw [mem_dedupeByUrl]
    constructor
    · intro h
      have hlt : (l.findIdx fun t => t.url == q.url) < l.length := by
        rcases Nat.lt_or_ge (l.findIdx fun t => t.url == q.url) l.length with hl | hg
        · exact hl
        · rw [List.getElem?_eq_none (by omega)] at h
          exact absurd h (by simp)
      refine ⟨l.findIdx fun t => t.url == q.url, hlt, ?_, ?_⟩
      · have := List.getElem?_eq_getElem hlt
        rw [this] at h
        simpa using h
      · intro j hj
        have hfalse := List.not_of_lt_findIdx hj
        simpa using hfalse
    · rintro ⟨i, hlt, hget, hfirst⟩
      have hidx : (l.findIdx fun t => t.url == q.url) = i := by
        rw [List.findIdx_eq hlt]
        constructor
        · simp [← hget]
        · intro j hj
          have := hfirst j hj
          simpa using this
      rw [hidx, List.getElem?_eq_getElem hlt]
      simpa using hget

/-- Witness for C6 at a concrete three-element list with a duplicated url:
the middle duplicate is dropped, the kept elements have distinct urls. -/
theorem dedupe_c6_w :
    (dedupeByUrl [⟨"s1", "n1", "b1", 1, "u1", none⟩, ⟨"s2", "n2", "b2", 2, "u1", none⟩,
        ⟨"s3", "n3", "b3", 3, "u2", none⟩]).Pairwise (fun a b => a.url ≠ b.url) ∧
    List.Sublist
      (dedupeByUrl [⟨"s1", "n1", "b1", 1, "u1", none⟩, ⟨"s2", "n2", "b2", 2, "u1", none⟩,
        ⟨"s3", "n3", "b3", 3, "u2", none⟩])
      [⟨"s1", "n1", "b1", 1, "u1", none⟩, ⟨"s2", "n2", "b2", 2, "u1", none⟩,
       ⟨"s3", "n3", "b3", 3, "u2", none⟩] :=
  ⟨(dedupe_c6 [⟨"s1", "n1", "b1", 1, "u1", none⟩, ⟨"s2", "n2", "b2", 2, "u1", none⟩,
      ⟨"s3", "n3", "b3", 3, "u2", none⟩]).2.1,
   (dedupe_c6 [⟨"s1", "n1", "b1", 1, "u1", none⟩, ⟨"s2", "n2", "b2", 2, "u1", none⟩,
      ⟨"s3", "n3", "b3", 3, "u2", none⟩]).1⟩

/-- Recording a term that is (case-insensitively) fresh for the current
history just prepends the trimmed term and truncates to 20. -/
theorem saveToHistory_fresh (h : List String) (t : String)
    (hne : (strTrim t) ≠ "") (hfresh : ∀ s ∈ h, (strToLower s) ≠ strToLower (strTrim t)) :
    saveToHistory h t = ((strTrim t) :: h).take 20 := by
  unfold saveToHistory
  rw [if_neg hne]
  have hfe : (h.filter fun s => (strToLower s) != strToLower (strTrim t)) = h := by
    rw [List.filter_eq_self]
    intro a ha
    simpa using hfresh a ha
  rw [hfe]

/-- Taking a prefix after appending to a truncated list is the same as
truncating once at the end. -/
theorem take_append_take (x y : List String) (n : Nat) :
    (x ++ y.take n).take n = (x ++ y).take n := by
  rw [List.take_append_eq_append_take, List.take_append_eq_append_take, List.take_take]
  rw [min_eq_left (Nat.sub_le n x.length)]

/-- Recording a sequence of pairwise (case-insensitively) distinct,
nonempty terms into a short history keeps the most recent 20, newest
first. -/
theorem recordAll_fresh : ∀ (ts : List String) (h : List String),
    h.length ≤ 20 →
    (∀ t ∈ ts, (strTrim t) ≠ "") →
    (ts.map fun t => strToLower (strTrim t)).Pairwise (fun a b => a ≠ b) →
    (∀ t ∈ ts, ∀ s ∈ h, (strToLower s) ≠ strToLower (strTrim t)) →
    recordAll h ts = ((ts.map strTrim).reverse ++ h).take 20
  | [], h, hlen, _, _, _ => by
    simp [recordAll, List.take_of_length_le hlen]
  | t :: ts, h, hlen, hne, hnd, hfresh => by
    have hsave : saveToHistory h t = ((strTrim t) :: h).take 20 :=
      saveToHistory_fresh h t (hne t (List.mem_cons_self t ts))
        (hfresh t (List.mem_cons_self t ts))
    have hlen2 : (((strTrim t) :: h).take 20).length ≤ 20 := List.length_take_le 20 _
    have hnd2 : (ts.map fun u => strToLower (strTrim u)).Pairwise (fun a b => a ≠ b) := by
      rw [List.map_cons, List.pairwise_cons] at hnd
      exact hnd.2
    have hhd : ∀ u ∈ ts, strToLower (strTrim t) ≠ strToLower (strTrim u) := by
      rw [List.map_cons, List.pairwise_cons] at hnd
      intro u hu
      exact hnd.1 (strToLower (strTrim u)) (List.mem_map_of_mem _ hu)
    have hfresh2 : ∀ u ∈ ts, ∀ s ∈ ((strTrim t) :: h).take 20, (strToLower s) ≠ strToLower (strTrim u) := by
      intro u hu s hs
      rcases List.mem_cons.mp (List.mem_of_mem_take hs) with h1 | h1
      · subst h1
        exact hhd u hu
      · exact hfresh u (List.mem_cons_of_mem t hu) s h1
    have ih := recordAll_fresh ts (((strTrim t) :: h).take 20) hlen2
      (fun u hu => hne u (List.mem_cons_of_mem t hu)) hnd2 hfresh2
    show recordAll (saveToHistory h t) ts = _
    rw [hsave, ih]
    rw [List.map_cons, List.reverse_cons, List.append_assoc, List.singleton_append]
    exact take_append_take _ _ 20

/-- C7: recording a term trims it, no-ops on a whitespace-only string,
puts the trimmed term at index 0, keeps at most 20 entries with exactly
one entry case-insensitively equal to the term (so recording the same term
twice leaves a single copy at index 0); recording any sequence of
pairwise case-insensitively distinct nonempty terms — in particular 21
distinct terms — leaves the most recent 20, newest first. -/
theorem history_c7 (h : List String) (t : String) (ts : List String)
    (hts_ne : ∀ u ∈ ts, (strTrim u) ≠ "")
    (hts_nd : (ts.map fun u => strToLower (strTrim u)).Pairwise (fun a b => a ≠ b)) :
    ((strTrim t) = "" → saveToHistory h t = h) ∧
    ((strTrim t) ≠ "" →
      (saveToHistory h t).head? = some (strTrim t) ∧
      (saveToHistory h t).length ≤ 20 ∧
      (saveToHistory h t).countP (fun s => (strToLower s) == strToLower (strTrim t)) = 1) ∧
    recordAll [] ts = ((ts.map strTrim).reverse).take 20 := by
  refine ⟨?_, ?_, ?_⟩
  · intro h0
    simp [saveToHistory, h0]
  · intro hne
    have hshape : saveToHistory h t =
        (strTrim t) :: ((h.filter fun s => (strToLower s) != strToLower (strTrim t)).take 19) := by
      unfold saveToHistory
      rw [if_neg hne]
      exact List.take_succ_cons
    refine ⟨by rw [hshape]; rfl, ?_, ?_⟩
    · unfold saveToHistory
      rw [if_neg hne]
      exact List.length_take_le 20 _
    · rw [hshape]
      rw [List.countP_cons_of_pos _ _ (by simp)]
      have hzero : ((h.filter fun s => (strToLower s) != strToLower (strTrim t)).take 19).countP
          (fun s => (strToLower s) == strToLower (strTrim t)) = 0 := by
        rw [List.countP_eq_zero]
        intro a ha
        have := List.of_mem_filter (List.mem_of_mem_take ha)
        simpa using this
      rw [hzero]
  · have := recordAll_fresh ts [] (by simp) hts_ne hts_nd (by simp)
    simpa using this

/-- Witness for C7: a padded term lands trimmed at index 0 with its
case-insensitive duplicate removed, and 21 distinct terms leave the 20
most recent. -/
theorem history_c7_w :
    ((saveToHistory ["LECHE", "pan"] "  leche ").head? = some (strTrim "  leche ") ∧
      (saveToHistory ["LECHE", "pan"] "  leche ").length ≤ 20 ∧
      (saveToHistory ["LECHE", "pan"] "  leche ").countP
        (fun s => (strToLower s) == strToLower (strTrim "  leche ")) = 1) ∧
    recordAll [] ["t01", "t02", "t03", "t04", "t05", "t06", "t07", "t08", "t09", "t10",
        "t11", "t12", "t13", "t14", "t15", "t16", "t17", "t18", "t19", "t20", "t21"] =
      ((["t01", "t02", "t03", "t04", "t05", "t06", "t07", "t08", "t09", "t10",
         "t11", "t12", "t13", "t14", "t15", "t16", "t17", "t18", "t19", "t20",
         "t21"].map strTrim).reverse).take 20 :=
  ⟨(history_c7 ["LECHE", "pan"] "  leche "
      ["t01", "t02", "t03", "t04", "t05", "t06", "t07", "t08", "t09", "t10",
       "t11", "t12", "t13", "t14", "t15", "t16", "t17", "t18", "t19", "t20", "t21"]
      (by decide) (by decide)).2.1 (by decide),
   (history_c7 ["LECHE", "pan"] "  leche "
      ["t01", "t02", "t03", "t04", "t05", "t06", "t07", "t08", "t09", "t10",
       "t11", "t12", "t13", "t14", "t15", "t16", "t17", "t18", "t19", "t20", "t21"]
      (by decide) (by decide)).2.2⟩

/-- Witness for C5 at a concrete listing and concrete selections. -/
theorem filtered_mem_c5_w :
    (⟨"s1", "Leche Entera", "b1", 10, "u1", none⟩ : Price) ∈
      filteredList [⟨"s1", "Leche Entera", "b1", 10, "u1", none⟩] ["b1"] [] ["leche"] true ↔
      (⟨"s1", "Leche Entera", "b1", 10, "u1", none⟩ : Price) ∈
        [(⟨"s1", "Leche Entera", "b1", 10, "u1", none⟩ : Price)] ∧
      ((["b1"] = ([] : List String) ∨ "b1" ∈ ["b1"]) ∧
       ((([] : List String) = [] ∨ "s1" ∈ ([] : List String)) ∧
        (["leche"] = ([] : List String) ∨ ∃ i ∈ ["leche"],
          strContains (strToLower "Leche Entera") (strToLower i) = true))) :=
  filtered_mem_c5 [⟨"s1", "Leche Entera", "b1", 10, "u1", none⟩] ["b1"] [] ["leche"] true
    ⟨"s1", "Leche Entera", "b1", 10, "u1", none⟩

/-- C9: adding the same listing twice to an empty cart yields one entry of
quantity 2 whose total is price times 2; in general adding appends with
quantity 1 when the url is absent and increments in place when present, so
carts with pairwise distinct urls keep them distinct. -/
theorem cart_c9 (p : Price) (cart : List CartItem)
    (hu : cart.Pairwise (fun a b => a.url ≠ b.url)) :
    addToCart (addToCart [] p) p = [{ p with quantity := 2 }] ∧
    totalCartPrice (addToCart (addToCart [] p) p) = p.price * 2 ∧
    (addToCart cart p).Pairwise (fun a b => a.url ≠ b.url) ∧
    ((cart.any fun i => i.url == p.url) = false →
      addToCart cart p = cart ++ [{ p with quantity := 1 }]) := by
  have hone : addToCart [] p = [{ p with quantity := 1 }] := by
    simp [addToCart]
  have htwo : addToCart (addToCart [] p) p = [{ p with quantity := 2 }] := by
    rw [hone]
    simp [addToCart]
  refine ⟨htwo, ?_, ?_, ?_⟩
  · rw [htwo]
    simp [totalCartPrice]
  · by_cases hany : (cart.any fun i => i.url == p.url) = true
    · unfold addToCart
      rw [if_pos hany, List.pairwise_map]
      refine hu.imp ?_
      intro a b hne
      by_cases ha : (a.url == p.url) = true <;> by_cases hb : (b.url == p.url) = true <;>
        simp [ha, hb, hne]
    · rw [Bool.not_eq_true] at hany
      unfold addToCart
      rw [hany]
      simp only [Bool.false_eq_true, if_false]
      rw [List.pairwise_append]
      refine ⟨hu, by simp, ?_⟩
      intro a ha b hb
      simp only [List.mem_singleton] at hb
      subst hb
      have : ∀ x ∈ cart, ¬(x.url == p.url) = true := by
        simpa using List.any_eq_false.mp hany
      simpa using this a ha
  · intro hany
    unfold addToCart
    rw [hany]
    simp

/-- Witness for C9 at a concrete listing and the empty cart. -/
theorem cart_c9_w :
    addToCart (addToCart [] ⟨"s", "n", "b", 5, "u", none⟩) ⟨"s", "n", "b", 5, "u", none⟩ =
      [{ (⟨"s", "n", "b", 5, "u", none⟩ : Price) with quantity := 2 }] ∧
    totalCartPrice (addToCart (addToCart [] ⟨"s", "n", "b", 5, "u", none⟩)
      ⟨"s", "n", "b", 5, "u", none⟩) = (5 : ℚ) * 2 :=
  ⟨(cart_c9 ⟨"s", "n", "b", 5, "u", none⟩ [] (by simp)).1,
   (cart_c9 ⟨"s", "n", "b", 5, "u", none⟩ [] (by simp)).2.1⟩

/-- C8: saving a list whose name trims to the empty string shows the
validation alert and leaves the persisted collection, the cart and the
name input untouched, whether or not persistence would have succeeded. -/
theorem save_list_empty_c8 (s : ScreenState) (nowId todayDate : String)
    (persistOk : Bool) (hname : strTrim s.listName = "") :
    saveListToDevice s nowId todayDate persistOk =
      { s with alert := some ("Error", "Ponle un nombre a tu lista") } ∧
    (saveListToDevice s nowId todayDate persistOk).myLists = s.myLists ∧
    (saveListToDevice s nowId todayDate persistOk).cart = s.cart ∧
    (saveListToDevice s nowId todayDate persistOk).listName = s.listName := by
  unfold saveListToDevice
  rw [if_pos hname]
  exact ⟨rfl, rfl, rfl, rfl⟩

/-- Witness for C8 at a whitespace-only list name. -/
theorem save_list_empty_c8_w :
    (saveListToDevice ⟨[], "   ", [], true, none⟩ "123" "1/1/2026" true).myLists =
      ([] : List SavedList) ∧
    (saveListToDevice ⟨[], "   ", [], true, none⟩ "123" "1/1/2026" true).alert =
      some ("Error", "Ponle un nombre a tu lista") :=
  ⟨(save_list_empty_c8 ⟨[], "   ", [], true, none⟩ "123" "1/1/2026" true (by decide)).2.1,
   by rw [(save_list_empty_c8 ⟨[], "   ", [], true, none⟩ "123" "1/1/2026" true (by decide)).1]⟩

/-- C10: with a nonempty name, a successful save prepends the snapshot to
the persisted collection, empties the live cart, resets the name input and
closes the modal; a persistence failure only shows the error alert,
leaving cart, name and collection unchanged. -/
theorem save_list_frame_c10 (s : ScreenState) (nowId todayDate : String)
    (hname : strTrim s.listName ≠ "") :
    (saveListToDevice s nowId todayDate true).cart = [] ∧
    (saveListToDevice s nowId todayDate true).listName = "" ∧
    (saveListToDevice s nowId todayDate true).myLists =
      { id := nowId, name := s.listName, items := s.cart,
        total := totalCartPrice s.cart, date := todayDate } :: s.myLists ∧
    (saveListToDevice s nowId todayDate true).alert = some ("Éxito", "Lista guardada") ∧
    (saveListToDevice s nowId todayDate false).cart = s.cart ∧
    (saveListToDevice s nowId todayDate false).listName = s.listName ∧
    (saveListToDevice s nowId todayDate false).myLists = s.myLists ∧
    (saveListToDevice s nowId todayDate false).alert = some ("Error", "Error al guardar") := by
  unfold saveListToDevice
  rw [if_neg hname, if_neg hname]
  simp

/-- Witness for C10 at a concrete one-item cart and both persistence
outcomes. -/
theorem save_list_frame_c10_w :
    (saveListToDevice ⟨[⟨⟨"s", "n", "b", 5, "u", none⟩, 1⟩], "mi lista", [], true, none⟩
        "123" "1/1/2026" true).cart = [] ∧
    (saveListToDevice ⟨[⟨⟨"s", "n", "b", 5, "u", none⟩, 1⟩], "mi lista", [], true, none⟩
        "123" "1/1/2026" false).cart = [⟨⟨"s", "n", "b", 5, "u", none⟩, 1⟩] :=
  ⟨(save_list_frame_c10 ⟨[⟨⟨"s", "n", "b", 5, "u", none⟩, 1⟩], "mi lista", [], true, none⟩
      "123" "1/1/2026" (by decide)).1,
   (save_list_frame_c10 ⟨[⟨⟨"s", "n", "b", 5, "u", none⟩, 1⟩], "mi lista", [], true, none⟩
      "123" "1/1/2026" (by decide)).2.2.2.2.1⟩
